import Mathlib

/-!
Shallow embedding of the gbrust emulator core (src/src/mmu.rs and
src/src/cpu.rs). Machine integers are modelled as Nat with explicit
truncation (% 256, % 0x10000) exactly at the points where the Rust code
casts (as u8, as u16) or uses wrapping arithmetic. Rust methods that take
a mutable receiver and return Result are modelled as functions returning
the final state together with an optional error, so that mutations that
happen before an error are visible, exactly as in the source.
-/

set_option maxRecDepth 8000

namespace GBRust

/-- Pointwise update of a byte array modelled as a function. -/
def upd (f : Nat → Nat) (i v : Nat) : Nat → Nat :=
  fun j => if j = i then v else f j

/-- LCD register addresses, from mmu.rs. -/
def LCDC : Nat := 0xFF40

def STAT : Nat := 0xFF41

def LY : Nat := 0xFF44

def LYC : Nat := 0xFF45

/-- The MMU state, from mmu.rs. Byte arrays are functions from index to
byte; the cartridge header is omitted because no operation modelled here
reads it back. -/
structure MMU where
  rom_bank0 : Nat → Nat
  rom_bankn : Nat → Nat
  vram : Nat → Nat
  ext_ram : Nat → Nat
  wram : Nat → Nat
  oam : Nat → Nat
  io_regs : Nat → Nat
  hram : Nat → Nat
  ie_register : Nat
  cycles : Nat
  scanline : Nat
  mode : Nat

/-- MMU::new, all storage zeroed. -/
def MMU.new : MMU where
  rom_bank0 := fun _ => 0
  rom_bankn := fun _ => 0
  vram := fun _ => 0
  ext_ram := fun _ => 0
  wram := fun _ => 0
  oam := fun _ => 0
  io_regs := fun _ => 0
  hram := fun _ => 0
  ie_register := 0
  cycles := 0
  scanline := 0
  mode := 0

/-- MMU::read_byte. The Rust match arms are inclusive ranges tried in
source order; the sequential if chain below reproduces that order. -/
def MMU.read_byte (m : MMU) (address : Nat) : Nat :=
  if address ≤ 0x3FFF then m.rom_bank0 address
  else if address ≤ 0x7FFF then m.rom_bankn (address - 0x4000)
  else if address ≤ 0x9FFF then m.vram (address - 0x8000)
  else if address ≤ 0xBFFF then m.ext_ram (address - 0xA000)
  else if address ≤ 0xDFFF then m.wram (address - 0xC000)
  else if address ≤ 0xFDFF then m.wram (address - 0xE000)
  else if address ≤ 0xFE9F then m.oam (address - 0xFE00)
  else if 0xFF00 ≤ address ∧ address ≤ 0xFF7F then m.io_regs (address - 0xFF00)
  else if 0xFF80 ≤ address ∧ address ≤ 0xFFFE then m.hram (address - 0xFF80)
  else if address = 0xFFFF then m.ie_register
  else 0xFF

/-- MMU::write_byte. Rust tries match arms top down, so the generic
0xFF00..=0xFF7F arm captures every I/O address and the later arms for
0xFF40, 0xFF41 and 0xFF44 are unreachable; they are kept below, in source
order, to mirror the source exactly. -/
def MMU.write_byte (m : MMU) (address value : Nat) : MMU :=
  if address ≤ 0x7FFF then m
  else if address ≤ 0x9FFF then { m with vram := upd m.vram (address - 0x8000) value }
  else if address ≤ 0xBFFF then { m with ext_ram := upd m.ext_ram (address - 0xA000) value }
  else if address ≤ 0xDFFF then { m with wram := upd m.wram (address - 0xC000) value }
  else if address ≤ 0xFDFF then { m with wram := upd m.wram (address - 0xE000) value }
  else if address ≤ 0xFE9F then { m with oam := upd m.oam (address - 0xFE00) value }
  else if 0xFF00 ≤ address ∧ address ≤ 0xFF7F then
    { m with io_regs := upd m.io_regs (address - 0xFF00) value }
  else if address = 0xFF40 then
    { m with io_regs := upd m.io_regs (address - 0xFF00) value }
  else if address = 0xFF41 then
    { m with io_regs := upd m.io_regs (address - 0xFF00) ((value &&& 0x78) ||| (m.io_regs (address - 0xFF00) &&& 0x87)) }
  else if address = 0xFF44 then
    { m with scanline := 0, io_regs := upd m.io_regs (address - 0xFF00) 0 }
  else if 0xFF80 ≤ address ∧ address ≤ 0xFFFE then
    { m with hram := upd m.hram (address - 0xFF80) value }
  else if address = 0xFFFF then { m with ie_register := value }
  else m

/-- MMU::update_lcd. -/
def MMU.update_lcd (m : MMU) (cycles : Nat) : MMU :=
  let m1 : MMU := { m with cycles := m.cycles + cycles }
  if 456 ≤ m1.cycles then
    let m2 : MMU := { m1 with cycles := m1.cycles - 456 }
    let m3 : MMU := { m2 with scanline := (m2.scanline + 1) % 154 }
    let m4 : MMU := m3.write_byte LY m3.scanline
    let md : Nat := if m4.cycles ≤ 80 then 2 else if m4.cycles ≤ 252 then 3 else 0
    let m5 : MMU := { m4 with mode := if 144 ≤ m4.scanline then 1 else md }
    let stat : Nat := (m5.read_byte STAT &&& 0xFC) ||| m5.mode
    m5.write_byte STAT stat
  else m1

/-- The two fault kinds of cpu.rs. -/
inductive CPUError where
  | NoMMU : CPUError
  | UnknownOpcode : Nat → CPUError
deriving DecidableEq, Repr

/-- The CPU state, from cpu.rs. -/
structure CPU where
  a : Nat
  f : Nat
  b : Nat
  c : Nat
  d : Nat
  e : Nat
  h : Nat
  l : Nat
  sp : Nat
  pc : Nat
  debug_mode : Bool
  mmu : Option MMU
  interrupt_enabled : Bool

/-- Flag bit positions. -/
def ZERO_FLAG : Nat := 7

def SUBTRACT_FLAG : Nat := 6

def HALF_CARRY_FLAG : Nat := 5

def CARRY_FLAG : Nat := 4

/-- CPU::new. -/
def CPU.new : CPU where
  a := 0
  f := 0
  b := 0
  c := 0
  d := 0
  e := 0
  h := 0
  l := 0
  sp := 0
  pc := 0
  debug_mode := false
  mmu := none
  interrupt_enabled := true

/-- CPU::initialize, the documented power-on state. -/
def CPU.initialize (cpu : CPU) : CPU :=
  { cpu with a := 0x01, f := 0xB0, b := 0x00, c := 0x13, d := 0x00, e := 0xD8,
             h := 0x01, l := 0x4D, sp := 0xFFFE, pc := 0x0000 }

/-- CPU::set_flag; the Rust bit clear uses the u8 complement of the mask. -/
def CPU.set_flag (cpu : CPU) (flag : Nat) (value : Bool) : CPU :=
  if value then { cpu with f := cpu.f ||| (1 <<< flag) }
  else { cpu with f := cpu.f &&& (255 ^^^ (1 <<< flag)) }

/-- CPU::get_flag. -/
def CPU.get_flag (cpu : CPU) (flag : Nat) : Bool :=
  (cpu.f &&& (1 <<< flag)) != 0

/-- LD B,n. -/
def CPU.ld_b_n (cpu : CPU) (n : Nat) : CPU := { cpu with b := n }

/-- LD C,n. -/
def CPU.ld_c_n (cpu : CPU) (n : Nat) : CPU := { cpu with c := n }

/-- LD (HL-),A. SP-style u16 wrapping subtraction is (x + 0xFFFF) % 0x10000;
the casts of the decremented HL back into h and l are the u8 truncations of
the Rust "as u8" casts. -/
def CPU.ld_hl_dec_a (cpu : CPU) : CPU × Option CPUError :=
  let hl : Nat := (cpu.h <<< 8) ||| cpu.l
  match cpu.mmu with
  | some mmu =>
    let mmu1 := mmu.write_byte hl cpu.a
    let new_hl : Nat := (hl + 0xFFFF) % 0x10000
    ({ cpu with mmu := some mmu1, h := (new_hl >>> 8) % 256, l := new_hl % 256 }, none)
  | none => (cpu, some CPUError.NoMMU)

/-- LD A,D. -/
def CPU.ld_a_d (cpu : CPU) : CPU := { cpu with a := cpu.d }

/-- LD A,n. -/
def CPU.ld_a_n (cpu : CPU) (n : Nat) : CPU := { cpu with a := n }

/-- LDH (n),A. -/
def CPU.ldh_n_a (cpu : CPU) (n : Nat) : CPU × Option CPUError :=
  let address : Nat := 0xFF00 ||| n
  match cpu.mmu with
  | some mmu => ({ cpu with mmu := some (mmu.write_byte address cpu.a) }, none)
  | none => (cpu, some CPUError.NoMMU)

/-- INC B. -/
def CPU.inc_b (cpu : CPU) : CPU :=
  let cpu1 := { cpu with b := (cpu.b + 1) % 256 }
  let cpu2 := cpu1.set_flag ZERO_FLAG (cpu1.b == 0)
  let cpu3 := cpu2.set_flag SUBTRACT_FLAG false
  cpu3.set_flag HALF_CARRY_FLAG ((cpu3.b &&& 0x0F) == 0)

/-- INC C. -/
def CPU.inc_c (cpu : CPU) : CPU :=
  let cpu1 := { cpu with c := (cpu.c + 1) % 256 }
  let cpu2 := cpu1.set_flag ZERO_FLAG (cpu1.c == 0)
  let cpu3 := cpu2.set_flag SUBTRACT_FLAG false
  cpu3.set_flag HALF_CARRY_FLAG ((cpu3.c &&& 0x0F) == 0)

/-- INC D. -/
def CPU.inc_d (cpu : CPU) : CPU :=
  let cpu1 := { cpu with d := (cpu.d + 1) % 256 }
  let cpu2 := cpu1.set_flag ZERO_FLAG (cpu1.d == 0)
  let cpu3 := cpu2.set_flag SUBTRACT_FLAG false
  cpu3.set_flag HALF_CARRY_FLAG ((cpu3.d &&& 0x0F) == 0)

/-- DEC B; u8 wrapping subtraction of 1 is (x + 255) % 256. -/
def CPU.dec_b (cpu : CPU) : CPU :=
  let cpu1 := { cpu with b := (cpu.b + 255) % 256 }
  let cpu2 := cpu1.set_flag ZERO_FLAG (cpu1.b == 0)
  let cpu3 := cpu2.set_flag SUBTRACT_FLAG true
  cpu3.set_flag HALF_CARRY_FLAG ((cpu3.b &&& 0x0F) == 0x0F)

/-- DEC C. -/
def CPU.dec_c (cpu : CPU) : CPU :=
  let cpu1 := { cpu with c := (cpu.c + 255) % 256 }
  let cpu2 := cpu1.set_flag ZERO_FLAG (cpu1.c == 0)
  let cpu3 := cpu2.set_flag SUBTRACT_FLAG true
  cpu3.set_flag HALF_CARRY_FLAG ((cpu3.c &&& 0x0F) == 0x0F)

/-- DEC D. -/
def CPU.dec_d (cpu : CPU) : CPU :=
  let cpu1 := { cpu with d := (cpu.d + 255) % 256 }
  let cpu2 := cpu1.set_flag ZERO_FLAG (cpu1.d == 0)
  let cpu3 := cpu2.set_flag SUBTRACT_FLAG true
  cpu3.set_flag HALF_CARRY_FLAG ((cpu3.d &&& 0x0F) == 0x0F)

/-- XOR A. -/
def CPU.xor_a (cpu : CPU) : CPU :=
  let cpu1 := { cpu with a := cpu.a ^^^ cpu.a }
  let cpu2 := cpu1.set_flag ZERO_FLAG true
  let cpu3 := cpu2.set_flag SUBTRACT_FLAG false
  let cpu4 := cpu3.set_flag HALF_CARRY_FLAG false
  cpu4.set_flag CARRY_FLAG false

/-- ADC A,C; operands widened to u16 before summing, result truncated. -/
def CPU.adc_a_c (cpu : CPU) : CPU :=
  let carry : Nat := if cpu.get_flag CARRY_FLAG then 1 else 0
  let result : Nat := cpu.a + cpu.c + carry
  let half_carry : Bool := decide (0x0F < (cpu.a &&& 0x0F) + (cpu.c &&& 0x0F) + carry)
  let cpu1 := { cpu with a := result % 256 }
  let cpu2 := cpu1.set_flag ZERO_FLAG (cpu1.a == 0)
  let cpu3 := cpu2.set_flag SUBTRACT_FLAG false
  let cpu4 := cpu3.set_flag HALF_CARRY_FLAG half_carry
  cpu4.set_flag CARRY_FLAG (decide (0xFF < result))

/-- RRA. -/
def CPU.rra (cpu : CPU) : CPU :=
  let carry : Nat := if cpu.get_flag CARRY_FLAG then 1 else 0
  let new_carry : Nat := cpu.a &&& 0x01
  let cpu1 := { cpu with a := (cpu.a >>> 1) ||| (carry <<< 7) }
  let cpu2 := cpu1.set_flag ZERO_FLAG false
  let cpu3 := cpu2.set_flag SUBTRACT_FLAG false
  let cpu4 := cpu3.set_flag HALF_CARRY_FLAG false
  cpu4.set_flag CARRY_FLAG (new_carry == 1)

/-- LD HL,nn. -/
def CPU.ld_hl_nn (cpu : CPU) (nn : Nat) : CPU :=
  { cpu with l := nn &&& 0xFF, h := (nn >>> 8) % 256 }

/-- LD SP,nn. -/
def CPU.ld_sp_nn (cpu : CPU) (nn : Nat) : CPU := { cpu with sp := nn }

/-- JP nn. -/
def CPU.jp (cpu : CPU) (addr : Nat) : CPU := { cpu with pc := addr }

/-- The Rust cast chain (n as i8 as i16 as u16) on a byte n: values below
0x80 stay, values from 0x80 sign-extend to 0xFF00 + n. -/
def sign_extend8 (n : Nat) : Nat :=
  if n < 0x80 then n else 0xFF00 + n

/-- JR NZ,n. -/
def CPU.jr_nz_n (cpu : CPU) (n : Nat) : CPU :=
  if !(cpu.get_flag ZERO_FLAG) then
    { cpu with pc := (cpu.pc + sign_extend8 n) % 0x10000 }
  else cpu

/-- NOP. -/
def CPU.nop (cpu : CPU) : CPU := cpu

/-- DI. -/
def CPU.di (cpu : CPU) : CPU := { cpu with interrupt_enabled := false }

/-- EI. -/
def CPU.ei (cpu : CPU) : CPU := { cpu with interrupt_enabled := true }

/-- RST 18h. As in the source, SP is decremented before the MMU check;
the high byte of PC is stored at the first decremented SP, the low byte
at the second, and PC is set to 0x0018. -/
def CPU.rst_18 (cpu : CPU) : CPU × Option CPUError :=
  let cpu1 := { cpu with sp := (cpu.sp + 0xFFFF) % 0x10000 }
  match cpu1.mmu with
  | some mmu =>
    let mmu1 := mmu.write_byte cpu1.sp ((cpu1.pc >>> 8) % 256)
    let cpu2 := { cpu1 with sp := (cpu1.sp + 0xFFFF) % 0x10000 }
    let mmu2 := mmu1.write_byte cpu2.sp (cpu2.pc % 256)
    ({ cpu2 with mmu := some mmu2, pc := 0x0018 }, none)
  | none => (cpu1, some CPUError.NoMMU)

/-- RST 38h. -/
def CPU.rst_38 (cpu : CPU) : CPU × Option CPUError :=
  let cpu1 := { cpu with sp := (cpu.sp + 0xFFFF) % 0x10000 }
  match cpu1.mmu with
  | some mmu =>
    let mmu1 := mmu.write_byte cpu1.sp ((cpu1.pc >>> 8) % 256)
    let cpu2 := { cpu1 with sp := (cpu1.sp + 0xFFFF) % 0x10000 }
    let mmu2 := mmu1.write_byte cpu2.sp (cpu2.pc % 256)
    ({ cpu2 with mmu := some mmu2, pc := 0x0038 }, none)
  | none => (cpu1, some CPUError.NoMMU)

/-- CPU::fetch_byte: read at PC, advance PC by one with u16 wrap. -/
def CPU.fetch_byte (cpu : CPU) : CPU × Except CPUError Nat :=
  match cpu.mmu with
  | some mmu =>
    ({ cpu with pc := (cpu.pc + 1) % 0x10000 }, Except.ok (mmu.read_byte cpu.pc))
  | none => (cpu, Except.error CPUError.NoMMU)

/-- CPU::fetch_word: low byte at PC, high byte at PC+1, advance PC by two. -/
def CPU.fetch_word (cpu : CPU) : CPU × Except CPUError Nat :=
  match cpu.mmu with
  | some mmu =>
    let low_byte := mmu.read_byte cpu.pc
    let high_byte := mmu.read_byte ((cpu.pc + 1) % 0x10000)
    ({ cpu with pc := (cpu.pc + 2) % 0x10000 }, Except.ok ((high_byte <<< 8) ||| low_byte))
  | none => (cpu, Except.error CPUError.NoMMU)

/-- CPU::execute: the opcode dispatch, arms in source order; the debug
printing of the source is purely observational and has no state effect. -/
def CPU.execute (cpu : CPU) (opcode : Nat) : CPU × Option CPUError :=
  if opcode = 0x00 then (cpu.nop, none)
  else if opcode = 0x06 then
    match cpu.fetch_byte with
    | (cpu1, Except.ok n) => (cpu1.ld_b_n n, none)
    | (cpu1, Except.error err) => (cpu1, some err)
  else if opcode = 0x04 then (cpu.inc_b, none)
  else if opcode = 0x05 then (cpu.dec_b, none)
  else if opcode = 0x0C then (cpu.inc_c, none)
  else if opcode = 0x0D then (cpu.dec_c, none)
  else if opcode = 0x0E then
    match cpu.fetch_byte with
    | (cpu1, Except.ok n) => (cpu1.ld_c_n n, none)
    | (cpu1, Except.error err) => (cpu1, some err)
  else if opcode = 0x14 then (cpu.inc_d, none)
  else if opcode = 0x15 then (cpu.dec_d, none)
  else if opcode = 0x1F then (cpu.rra, none)
  else if opcode = 0x20 then
    match cpu.fetch_byte with
    | (cpu1, Except.ok n) => (cpu1.jr_nz_n n, none)
    | (cpu1, Except.error err) => (cpu1, some err)
  else if opcode = 0x21 then
    match cpu.fetch_word with
    | (cpu1, Except.ok nn) => (cpu1.ld_hl_nn nn, none)
    | (cpu1, Except.error err) => (cpu1, some err)
  else if opcode = 0x31 then
    match cpu.fetch_word with
    | (cpu1, Except.ok nn) => (cpu1.ld_sp_nn nn, none)
    | (cpu1, Except.error err) => (cpu1, some err)
  else if opcode = 0x32 then cpu.ld_hl_dec_a
  else if opcode = 0x3E then
    match cpu.fetch_byte with
    | (cpu1, Except.ok n) => (cpu1.ld_a_n n, none)
    | (cpu1, Except.error err) => (cpu1, some err)
  else if opcode = 0x89 then (cpu.adc_a_c, none)
  else if opcode = 0xAF then (cpu.xor_a, none)
  else if opcode = 0xC3 then
    match cpu.fetch_word with
    | (cpu1, Except.ok addr) => (cpu1.jp addr, none)
    | (cpu1, Except.error err) => (cpu1, some err)
  else if opcode = 0xDF then cpu.rst_18
  else if opcode = 0xFF then cpu.rst_38
  else if opcode = 0x7A then (cpu.ld_a_d, none)
  else if opcode = 0xE0 then
    match cpu.fetch_byte with
    | (cpu1, Except.ok n) => cpu1.ldh_n_a n
    | (cpu1, Except.error err) => (cpu1, some err)
  else if opcode = 0xF3 then (cpu.di, none)
  else if opcode = 0xFB then (cpu.ei, none)
  else (cpu, some (CPUError.UnknownOpcode opcode))

/-- CPU::step: fetch one opcode byte, then dispatch. -/
def CPU.step (cpu : CPU) : CPU × Option CPUError :=
  match cpu.fetch_byte with
  | (cpu1, Except.ok opcode) => cpu1.execute opcode
  | (cpu1, Except.error err) => (cpu1, some err)

/-- The opcode bytes that CPU::execute recognises. -/
def knownOpcodes : List Nat :=
  [0x00, 0x06, 0x04, 0x05, 0x0C, 0x0D, 0x0E, 0x14, 0x15, 0x1F, 0x20, 0x21,
   0x31, 0x32, 0x3E, 0x89, 0xAF, 0xC3, 0xDF, 0xFF, 0x7A, 0xE0, 0xF3, 0xFB]

/-- The joint dynamics of the accumulator and the carry flag under RRA,
as a pure map on pairs; used to relate RRA to a 9-bit rotation. -/
def rraStep (p : Nat × Bool) : Nat × Bool :=
  ((p.1 >>> 1) ||| ((if p.2 then 1 else 0) <<< 7), p.1 &&& 1 == 1)

/-! ## Helper lemmas -/

/-- Writes to the scanline register address go through the generic I/O arm
because that arm precedes the special 0xFF44 arm in the source. -/
theorem write_byte_ly (m : MMU) (v : Nat) :
    m.write_byte LY v = { m with io_regs := upd m.io_regs 0x44 v } := rfl

/-- Writes to the status register address go through the generic I/O arm
because that arm precedes the special 0xFF41 arm in the source. -/
theorem write_byte_stat (m : MMU) (v : Nat) :
    m.write_byte STAT v = { m with io_regs := upd m.io_regs 0x41 v } := rfl

theorem read_byte_ly (m : MMU) : m.read_byte LY = m.io_regs 0x44 := rfl

theorem read_byte_stat (m : MMU) : m.read_byte STAT = m.io_regs 0x41 := rfl

theorem update_lcd_cycles (m : MMU) (c : Nat) :
    (m.update_lcd c).cycles =
      if 456 ≤ m.cycles + c then m.cycles + c - 456 else m.cycles + c := by
  by_cases h : 456 ≤ m.cycles + c <;>
    simp [MMU.update_lcd, h, write_byte_ly, write_byte_stat]

theorem update_lcd_scanline (m : MMU) (c : Nat) :
    (m.update_lcd c).scanline =
      if 456 ≤ m.cycles + c then (m.scanline + 1) % 154 else m.scanline := by
  by_cases h : 456 ≤ m.cycles + c <;>
    simp [MMU.update_lcd, h, write_byte_ly, write_byte_stat]

theorem update_lcd_ly_readback (m : MMU) (c : Nat) (h : 456 ≤ m.cycles + c) :
    (m.update_lcd c).read_byte LY = (m.scanline + 1) % 154 := by
  simp [MMU.update_lcd, h, write_byte_ly, write_byte_stat, read_byte_ly, upd]

theorem update_lcd_mode_eq (m : MMU) (c : Nat) (h : 456 ≤ m.cycles + c) :
    (m.update_lcd c).mode =
      if 144 ≤ (m.scanline + 1) % 154 then 1
      else if m.cycles + c - 456 ≤ 80 then 2
      else if m.cycles + c - 456 ≤ 252 then 3
      else 0 := by
  simp [MMU.update_lcd, h, write_byte_ly, write_byte_stat]

theorem update_lcd_stat_readback (m : MMU) (c : Nat) (h : 456 ≤ m.cycles + c) :
    (m.update_lcd c).read_byte STAT =
      ((m.io_regs 0x41) &&& 0xFC) ||| (m.update_lcd c).mode := by
  simp [MMU.update_lcd, h, write_byte_ly, write_byte_stat, read_byte_stat, upd]

/-- Invariant of driving the timing controller with per-call amounts of at
most 456 cycles: after consuming a total of s cycles from the reset state,
the accumulator holds s % 456 and the scanline is s / 456 % 154. -/
theorem foldl_update_lcd (l : List Nat) :
    ∀ (m : MMU) (s : Nat), (∀ x ∈ l, x ≤ 456) →
      m.cycles = s % 456 → m.scanline = s / 456 % 154 →
      (l.foldl MMU.update_lcd m).cycles = (s + l.sum) % 456 ∧
      (l.foldl MMU.update_lcd m).scanline = (s + l.sum) / 456 % 154 := by
  induction l with
  | nil =>
    intro m s _ hc hs
    simpa using ⟨hc, hs⟩
  | cons x xs ih =>
    intro m s hall hc hs
    have hx : x ≤ 456 := hall x (List.mem_cons_self x xs)
    have hall2 : ∀ y ∈ xs, y ≤ 456 := fun y hy => hall y (List.mem_cons_of_mem x hy)
    have hc2 : (m.update_lcd x).cycles = (s + x) % 456 := by
      rw [update_lcd_cycles, hc]
      by_cases h : 456 ≤ s % 456 + x
      · rw [if_pos h]; omega
      · rw [if_neg h]; omega
    have hs2 : (m.update_lcd x).scanline = (s + x) / 456 % 154 := by
      rw [update_lcd_scanline, hc, hs]
      by_cases h : 456 ≤ s % 456 + x
      · rw [if_pos h]; omega
      · rw [if_neg h]; omega
    have hsum : s + (x :: xs).sum = (s + x) + xs.sum := by
      simp [List.sum_cons]; omega
    rw [List.foldl_cons, hsum]
    exact ih (m.update_lcd x) (s + x) hall2 hc2 hs2

/-! ## Claim theorems -/

/-- Claim C1 (code bug): with no address space attached, the restart
operations return the MissingAddressSpace fault but have already
decremented SP, because the source decrements SP before the MMU check;
the claim that every register is unchanged fails on them. -/
theorem rst_noMMU_sp_mutated :
    ((({ CPU.new with sp := 0xFFFE } : CPU).rst_18).2 = some CPUError.NoMMU) ∧
    ((({ CPU.new with sp := 0xFFFE } : CPU).rst_18).1.sp = 0xFFFD) ∧
    ((({ CPU.new with sp := 0xFFFE } : CPU).rst_38).2 = some CPUError.NoMMU) ∧
    ((({ CPU.new with sp := 0xFFFE } : CPU).rst_38).1.sp = 0xFFFD) ∧
    (0xFFFD : Nat) ≠ 0xFFFE := by
  exact ⟨rfl, rfl, rfl, rfl, by decide⟩

/-- Claim C2 (code bug): a write to the scanline readback register stores
the written value verbatim and leaves the internal scanline counter
untouched, because the generic I/O arm shadows the 0xFF44 reset arm; the
read after the write returns the written value, not 0. -/
theorem write_ly_stores_value :
    ((({ MMU.new with scanline := 7 } : MMU).write_byte 0xFF44 5).read_byte 0xFF44 = 5) ∧
    ((({ MMU.new with scanline := 7 } : MMU).write_byte 0xFF44 5).scanline = 7) ∧
    (5 : Nat) ≠ 0 := by
  exact ⟨rfl, rfl, by decide⟩

/-- Claim C3 (code bug): a write to the display status register stores the
written value verbatim because the generic I/O arm shadows the masking arm
for 0xFF41; with prior content 0x87 and written value 0x78 the claim
predicts a stored value of 0xFF but the code stores 0x78. -/
theorem write_stat_unmasked :
    ((({ MMU.new with io_regs := upd (fun _ => 0) 0x41 0x87 } : MMU).write_byte 0xFF41 0x78).read_byte 0xFF41 = 0x78) ∧
    (((0x78 &&& 0x78) ||| (0x87 &&& 0x87) : Nat) = 0xFF) ∧
    (0x78 : Nat) ≠ 0xFF := by
  exact ⟨rfl, by decide, by decide⟩

/-- Claim C4, counterexample: supplying the total of 456 * 154 cycles in a
single update call does not return the scanline to 0 — the threshold check
runs once per call, so the call advances the scanline exactly once. -/
theorem update_lcd_single_call_counterexample :
    (MMU.new.update_lcd (456 * 154)).scanline = 1 ∧ (1 : Nat) ≠ 0 := by
  exact ⟨rfl, by decide⟩

/-- Claim C9: writes to the four listed RAM addresses read back the written
byte; writes into the ROM range are no-ops and reads there return the
pre-write content; addresses 0xFEA0 to 0xFEFF read the open-bus sentinel
0xFF and writes there leave the state unchanged. -/
theorem mmu_roundtrip_rom_openbus :
    (∀ (m : MMU) (a v : Nat), v < 256 →
      (a = 0x8000 ∨ a = 0xC000 ∨ a = 0xFF80 ∨ a = 0xFFFF) →
      (m.write_byte a v).read_byte a = v) ∧
    (∀ (m : MMU) (a v : Nat), a ≤ 0x7FFF →
      m.write_byte a v = m ∧ (m.write_byte a v).read_byte a = m.read_byte a) ∧
    (∀ (m : MMU) (a v : Nat), 0xFEA0 ≤ a → a ≤ 0xFEFF →
      m.read_byte a = 0xFF ∧ m.write_byte a v = m) := by
  refine ⟨?_, ?_, ?_⟩
  · rintro m a v _ (rfl | rfl | rfl | rfl) <;> rfl
  · intro m a v h
    have hw : m.write_byte a v = m := by
      unfold MMU.write_byte
      rw [if_pos h]
    exact ⟨hw, by rw [hw]⟩
  · intro m a v h1 h2
    constructor
    · unfold MMU.read_byte
      repeat rw [if_neg (by omega)]
    · unfold MMU.write_byte
      repeat rw [if_neg (by omega)]

/-- Claim C4 (amended): each update call adds the supplied cycles to the
accumulator and, when the accumulated total reaches 456, subtracts 456 once
and advances the scanline modulo 154, writing the new scanline into the
mapped register; driving the controller from the reset state with any
sequence of calls of at most 456 cycles each and total 456 * 154 returns
the scanline to 0. -/
theorem update_lcd_accumulator_schedule :
    (∀ (m : MMU) (c : Nat),
      (m.update_lcd c).cycles =
        (if 456 ≤ m.cycles + c then m.cycles + c - 456 else m.cycles + c) ∧
      (m.update_lcd c).scanline =
        (if 456 ≤ m.cycles + c then (m.scanline + 1) % 154 else m.scanline) ∧
      (456 ≤ m.cycles + c → (m.update_lcd c).read_byte LY = (m.scanline + 1) % 154)) ∧
    (∀ l : List Nat, (∀ x ∈ l, x ≤ 456) → l.sum = 456 * 154 →
      (l.foldl MMU.update_lcd MMU.new).scanline = 0 ∧
      (l.foldl MMU.update_lcd MMU.new).cycles = 0) := by
  constructor
  · intro m c
    exact ⟨update_lcd_cycles m c, update_lcd_scanline m c,
      fun h => update_lcd_ly_readback m c h⟩
  · intro l hall hsum
    have h := foldl_update_lcd l MMU.new 0 hall rfl rfl
    rw [hsum] at h
    exact ⟨by rw [h.2], by rw [h.1]⟩

/-- Witness for C4 at concrete inputs: 154 calls of 456 cycles each return
the scanline to 0, and a single completing call writes the new scanline
into the mapped register. -/
theorem update_lcd_accumulator_schedule_witness :
    ((List.replicate 154 456).foldl MMU.update_lcd MMU.new).scanline = 0 ∧
    (MMU.new.update_lcd 456).read_byte LY = 1 := by
  constructor
  · exact (update_lcd_accumulator_schedule.2 (List.replicate 154 456)
      (by decide) (by decide)).1
  · exact (update_lcd_accumulator_schedule.1 MMU.new 456).2.2 (by decide)

/-- Bits 2 to 7 of the status byte survive the masked-or with a mode value
below 4, and the low two bits become exactly the mode. -/
theorem stat_bits (s : Fin 256) (md : Fin 4) :
    (((s : Nat) &&& 0xFC) ||| (md : Nat)) % 4 = (md : Nat) ∧
    (((s : Nat) &&& 0xFC) ||| (md : Nat)) / 4 = (s : Nat) / 4 := by
  revert s md
  decide

/-- Claim C5: when an update call completes a scanline period, the mode is
2 when the remaining accumulated cycles are at most 80, 3 when at most 252
and 0 otherwise, forced to 1 when the new scanline is at least 144; the
mapped status register then holds the mode in its low two bits with the
remaining six bits unchanged. -/
theorem update_lcd_mode_status (m : MMU) (c : Nat)
    (h : 456 ≤ m.cycles + c) (hs : m.io_regs 0x41 < 256) :
    ((m.update_lcd c).mode =
      (if 144 ≤ (m.update_lcd c).scanline then 1
       else if (m.update_lcd c).cycles ≤ 80 then 2
       else if (m.update_lcd c).cycles ≤ 252 then 3
       else 0)) ∧
    (m.update_lcd c).read_byte STAT % 4 = (m.update_lcd c).mode ∧
    (m.update_lcd c).read_byte STAT / 4 = m.read_byte STAT / 4 := by
  have hsc : (m.update_lcd c).scanline = (m.scanline + 1) % 154 := by
    rw [update_lcd_scanline, if_pos h]
  have hcy : (m.update_lcd c).cycles = m.cycles + c - 456 := by
    rw [update_lcd_cycles, if_pos h]
  have hmode := update_lcd_mode_eq m c h
  have hmode4 : (m.update_lcd c).mode < 4 := by
    rw [hmode]
    split
    · omega
    · split
      · omega
      · split <;> omega
  refine ⟨?_, ?_, ?_⟩
  · rw [hmode, hsc, hcy]
  · rw [update_lcd_stat_readback m c h]
    exact (stat_bits ⟨m.io_regs 0x41, hs⟩ ⟨(m.update_lcd c).mode, hmode4⟩).1
  · rw [update_lcd_stat_readback m c h, read_byte_stat]
    exact (stat_bits ⟨m.io_regs 0x41, hs⟩ ⟨(m.update_lcd c).mode, hmode4⟩).2

/-- Witness for C5 at concrete inputs: from a state with status byte 0x85
and scanline 10, a completing call with 50 remaining cycles selects mode 2
and rewrites only the low two status bits. -/
theorem update_lcd_mode_status_witness :
    (({ MMU.new with io_regs := upd (fun _ => 0) 0x41 0x85, scanline := 10 } : MMU).update_lcd 506).mode = 2 ∧
    (({ MMU.new with io_regs := upd (fun _ => 0) 0x41 0x85, scanline := 10 } : MMU).update_lcd 506).read_byte STAT = 0x86 := by
  have h := update_lcd_mode_status
    ({ MMU.new with io_regs := upd (fun _ => 0) 0x41 0x85, scanline := 10 } : MMU)
    506 (by decide) (by decide)
  refine ⟨?_, ?_⟩
  · rw [h.1, update_lcd_scanline, update_lcd_cycles]
    decide
  · have h2 := h.2.1
    have h3 := h.2.2
    rw [update_lcd_stat_readback _ _ (by decide), h.1, update_lcd_scanline,
      update_lcd_cycles]
    decide

/-- Witness for C9 at concrete inputs. -/
theorem mmu_roundtrip_rom_openbus_witness :
    (MMU.new.write_byte 0xC000 0x42).read_byte 0xC000 = 0x42 ∧
    MMU.new.write_byte 0x0100 7 = MMU.new ∧
    MMU.new.read_byte 0xFEA0 = 0xFF := by
  refine ⟨?_, ?_, ?_⟩
  · exact mmu_roundtrip_rom_openbus.1 MMU.new 0xC000 0x42 (by decide) (by decide)
  · exact (mmu_roundtrip_rom_openbus.2.1 MMU.new 0x0100 7 (by decide)).1
  · exact (mmu_roundtrip_rom_openbus.2.2 MMU.new 0xFEA0 7 (by decide) (by decide)).1

/-- Claim C6: with an address space attached, each restart instruction
decrements SP by exactly 2, stores the high byte of the prior PC at the
higher new top-of-stack address SP-1 and the low byte at SP-2, then sets PC
to the fixed target; opcodes 0xDF and 0xFF dispatch to them. -/
theorem rst_push_semantics :
    ∀ (cpu : CPU) (m : MMU), cpu.mmu = some m → 2 ≤ cpu.sp → cpu.sp ≤ 0xFFFF →
      cpu.rst_18 = ({ cpu with sp := cpu.sp - 2, pc := 0x0018, mmu := some ((m.write_byte (cpu.sp - 1) ((cpu.pc >>> 8) % 256)).write_byte (cpu.sp - 2) (cpu.pc % 256)) }, none) ∧
      cpu.rst_38 = ({ cpu with sp := cpu.sp - 2, pc := 0x0038, mmu := some ((m.write_byte (cpu.sp - 1) ((cpu.pc >>> 8) % 256)).write_byte (cpu.sp - 2) (cpu.pc % 256)) }, none) ∧
      cpu.execute 0xDF = cpu.rst_18 ∧ cpu.execute 0xFF = cpu.rst_38 := by
  intro cpu m hm h2 h65
  have e1 : (cpu.sp + 0xFFFF) % 0x10000 = cpu.sp - 1 := by omega
  have e2 : (cpu.sp - 1 + 0xFFFF) % 0x10000 = cpu.sp - 2 := by omega
  refine ⟨?_, ?_, rfl, rfl⟩
  · simp [CPU.rst_18, hm, e1, e2]
  · simp [CPU.rst_38, hm, e1, e2]

/-- Witness for C6 at the concrete input of the repository test suite. -/
theorem rst_push_semantics_witness :
    ({ CPU.new with sp := 0xFFFE, pc := 0x1234, mmu := some MMU.new } : CPU).rst_18
      = ({ CPU.new with sp := 0xFFFC, pc := 0x0018, mmu := some ((MMU.new.write_byte 0xFFFD 0x12).write_byte 0xFFFC 0x34) }, none) := by
  exact (rst_push_semantics
    ({ CPU.new with sp := 0xFFFE, pc := 0x1234, mmu := some MMU.new } : CPU)
    MMU.new rfl (by decide) (by decide)).1

/-- Claim C7: JR NZ adds the immediate as a signed two's-complement offset
to the already advanced PC when the Zero flag is clear (values from 0x80
subtract 0x100 - n modulo 2^16) and leaves PC unchanged when it is set;
from PC 0x1230, offset 0x04 gives 0x1234 and offset 0xFC gives 0x122C. -/
theorem jr_nz_semantics :
    (∀ (cpu : CPU) (n : Nat), cpu.get_flag ZERO_FLAG = true → cpu.jr_nz_n n = cpu) ∧
    (∀ (cpu : CPU) (n : Nat), n < 0x80 → cpu.get_flag ZERO_FLAG = false →
      (cpu.jr_nz_n n).pc = (cpu.pc + n) % 0x10000) ∧
    (∀ (cpu : CPU) (n : Nat), 0x80 ≤ n → n ≤ 0xFF → cpu.get_flag ZERO_FLAG = false →
      (cpu.jr_nz_n n).pc = (cpu.pc + (0x10000 - (0x100 - n))) % 0x10000) ∧
    ((({ CPU.new with pc := 0x1230 } : CPU).jr_nz_n 0x04).pc = 0x1234) ∧
    ((({ CPU.new with pc := 0x1230 } : CPU).jr_nz_n 0xFC).pc = 0x122C) := by
  refine ⟨?_, ?_, ?_, rfl, rfl⟩
  · intro cpu n hz
    simp [CPU.jr_nz_n, hz]
  · intro cpu n hn hz
    simp [CPU.jr_nz_n, hz, sign_extend8, hn]
  · intro cpu n h1 h2 hz
    have hse : sign_extend8 n = 0x10000 - (0x100 - n) := by
      unfold sign_extend8
      rw [if_neg (by omega)]
      omega
    simp [CPU.jr_nz_n, hz, hse]

/-- Witness for C7 at concrete inputs. -/
theorem jr_nz_semantics_witness :
    ({ CPU.new with f := 0x80, pc := 0x1230 } : CPU).jr_nz_n 0x04
      = ({ CPU.new with f := 0x80, pc := 0x1230 } : CPU) ∧
    (({ CPU.new with pc := 0x2000 } : CPU).jr_nz_n 0x10).pc = 0x2010 ∧
    (({ CPU.new with pc := 0x2000 } : CPU).jr_nz_n 0xFE).pc = 0x1FFE := by
  refine ⟨jr_nz_semantics.1 _ 0x04 rfl, ?_, ?_⟩
  · exact jr_nz_semantics.2.1 ({ CPU.new with pc := 0x2000 } : CPU) 0x10 (by decide) rfl
  · exact jr_nz_semantics.2.2.1 ({ CPU.new with pc := 0x2000 } : CPU) 0xFE (by decide) (by decide) rfl

/-- Normal form of RRA: the accumulator is rotated through the old carry
and the flag byte is cleared of bits 7, 6, 5 and rewritten at bit 4 with
the old bit 0 of the accumulator. -/
theorem rra_eq (cpu : CPU) :
    cpu.rra =
      if cpu.a &&& 1 == 1 then
        { cpu with a := (cpu.a >>> 1) ||| ((if cpu.get_flag CARRY_FLAG then 1 else 0) <<< 7), f := (cpu.f &&& 127 &&& 191 &&& 223) ||| 16 }
      else
        { cpu with a := (cpu.a >>> 1) ||| ((if cpu.get_flag CARRY_FLAG then 1 else 0) <<< 7), f := cpu.f &&& 127 &&& 191 &&& 223 &&& 239 } := rfl

/-- Bit facts about the flag byte after RRA, for every byte value. -/
theorem rra_flag_facts (x : Fin 256) :
    (((((x : Nat) &&& 127 &&& 191 &&& 223) ||| 16) &&& 128 != 0) = false) ∧
    (((((x : Nat) &&& 127 &&& 191 &&& 223) ||| 16) &&& 64 != 0) = false) ∧
    (((((x : Nat) &&& 127 &&& 191 &&& 223) ||| 16) &&& 32 != 0) = false) ∧
    (((((x : Nat) &&& 127 &&& 191 &&& 223) ||| 16) &&& 16 != 0) = true) ∧
    ((((x : Nat) &&& 127 &&& 191 &&& 223 &&& 239) &&& 128 != 0) = false) ∧
    ((((x : Nat) &&& 127 &&& 191 &&& 223 &&& 239) &&& 64 != 0) = false) ∧
    ((((x : Nat) &&& 127 &&& 191 &&& 223 &&& 239) &&& 32 != 0) = false) ∧
    ((((x : Nat) &&& 127 &&& 191 &&& 223 &&& 239) &&& 16 != 0) = false) ∧
    ((((x : Nat) &&& 127 &&& 191 &&& 223) ||| 16) < 256) ∧
    (((x : Nat) &&& 127 &&& 191 &&& 223 &&& 239) < 256) := by
  revert x
  decide

/-- The rotated accumulator stays a byte. -/
theorem rra_a_bound (x : Fin 256) (b : Bool) :
    (((x : Nat) >>> 1) ||| ((if b then 1 else 0) <<< 7)) < 256 := by
  revert x b
  decide

/-- The pair dynamics of RRA is a 9-bit rotation: nine applications are
the identity on byte-and-carry pairs. -/
theorem rraStep_nine (x : Fin 256) (b : Bool) :
    rraStep^[9] ((x : Nat), b) = ((x : Nat), b) := by
  revert x b
  decide

/-- RRA acts on the accumulator and the carry flag exactly as rraStep. -/
theorem rra_pair (cpu : CPU) (hf : cpu.f < 256) :
    (cpu.rra.a, cpu.rra.get_flag CARRY_FLAG)
      = rraStep (cpu.a, cpu.get_flag CARRY_FLAG) := by
  have hfacts := rra_flag_facts ⟨cpu.f, hf⟩
  rw [rra_eq]
  by_cases h : (cpu.a &&& 1 == 1) = true
  · rw [if_pos h]
    refine Prod.ext rfl ?_
    show ((cpu.f &&& 127 &&& 191 &&& 223 ||| 16) &&& (1 <<< CARRY_FLAG) != 0)
      = (cpu.a &&& 1 == 1)
    rw [h]
    exact hfacts.2.2.2.1
  · rw [if_neg h]
    refine Prod.ext rfl ?_
    show ((cpu.f &&& 127 &&& 191 &&& 223 &&& 239) &&& (1 <<< CARRY_FLAG) != 0)
      = (cpu.a &&& 1 == 1)
    have h2 : (cpu.a &&& 1 == 1) = false := Bool.eq_false_iff.mpr h
    rw [h2]
    exact hfacts.2.2.2.2.2.2.2.1

/-- RRA preserves the byte bounds on the accumulator and the flag byte. -/
theorem rra_bounds (cpu : CPU) (ha : cpu.a < 256) (hf : cpu.f < 256) :
    cpu.rra.a < 256 ∧ cpu.rra.f < 256 := by
  have hfacts := rra_flag_facts ⟨cpu.f, hf⟩
  have hab := rra_a_bound ⟨cpu.a, ha⟩ (cpu.get_flag CARRY_FLAG)
  rw [rra_eq]
  by_cases h : (cpu.a &&& 1 == 1) = true
  · rw [if_pos h]
    exact ⟨hab, hfacts.2.2.2.2.2.2.2.2.1⟩
  · rw [if_neg h]
    exact ⟨hab, hfacts.2.2.2.2.2.2.2.2.2⟩

/-- Iterating RRA projects onto iterating the pair dynamics. -/
theorem rra_iter_pair (n : Nat) :
    ∀ (cpu : CPU), cpu.a < 256 → cpu.f < 256 →
      ((CPU.rra^[n] cpu).a, (CPU.rra^[n] cpu).get_flag CARRY_FLAG)
        = rraStep^[n] (cpu.a, cpu.get_flag CARRY_FLAG) := by
  induction n with
  | zero => intro cpu _ _; rfl
  | succ k ih =>
    intro cpu ha hf
    rw [Function.iterate_succ_apply, Function.iterate_succ_apply]
    have hb := rra_bounds cpu ha hf
    rw [ih cpu.rra hb.1 hb.2, rra_pair cpu hf]

/-- Claim C8: RRA sets the new carry to old bit 0 of A, sets A to the
right rotation through the old carry, unconditionally clears the zero,
subtract and half-carry flags, and applying it nine times restores both A
and the carry flag. -/
theorem rra_semantics (cpu : CPU) (ha : cpu.a < 256) (hf : cpu.f < 256) :
    cpu.rra.get_flag ZERO_FLAG = false ∧
    cpu.rra.get_flag SUBTRACT_FLAG = false ∧
    cpu.rra.get_flag HALF_CARRY_FLAG = false ∧
    cpu.rra.get_flag CARRY_FLAG = (cpu.a &&& 1 == 1) ∧
    cpu.rra.a = ((cpu.a >>> 1) ||| ((if cpu.get_flag CARRY_FLAG then 1 else 0) <<< 7)) ∧
    (CPU.rra^[9] cpu).a = cpu.a ∧
    (CPU.rra^[9] cpu).get_flag CARRY_FLAG = cpu.get_flag CARRY_FLAG := by
  have hfacts := rra_flag_facts ⟨cpu.f, hf⟩
  have hpair := rra_pair cpu hf
  have hiter := rra_iter_pair 9 cpu ha hf
  have hnine : rraStep^[9] (cpu.a, cpu.get_flag CARRY_FLAG)
      = (cpu.a, cpu.get_flag CARRY_FLAG) :=
    rraStep_nine ⟨cpu.a, ha⟩ (cpu.get_flag CARRY_FLAG)
  rw [hnine] at hiter
  refine ⟨?_, ?_, ?_, congrArg Prod.snd hpair, congrArg Prod.fst hpair,
    congrArg Prod.fst hiter, congrArg Prod.snd hiter⟩
  · rw [rra_eq]
    by_cases h : (cpu.a &&& 1 == 1) = true
    · rw [if_pos h]; exact hfacts.1
    · rw [if_neg h]; exact hfacts.2.2.2.2.1
  · rw [rra_eq]
    by_cases h : (cpu.a &&& 1 == 1) = true
    · rw [if_pos h]; exact hfacts.2.1
    · rw [if_neg h]; exact hfacts.2.2.2.2.2.1
  · rw [rra_eq]
    by_cases h : (cpu.a &&& 1 == 1) = true
    · rw [if_pos h]; exact hfacts.2.2.1
    · rw [if_neg h]; exact hfacts.2.2.2.2.2.2.1

/-- Witness for C8 at a concrete input. -/
theorem rra_semantics_witness :
    ({ CPU.new with a := 0x85, f := 0x10 } : CPU).rra.get_flag CARRY_FLAG = true ∧
    ({ CPU.new with a := 0x85, f := 0x10 } : CPU).rra.a = 0xC2 ∧
    (CPU.rra^[9] ({ CPU.new with a := 0x85, f := 0x10 } : CPU)).a = 0x85 ∧
    (CPU.rra^[9] ({ CPU.new with a := 0x85, f := 0x10 } : CPU)).get_flag CARRY_FLAG = true := by
  have h := rra_semantics ({ CPU.new with a := 0x85, f := 0x10 } : CPU)
    (by decide) (by decide)
  exact ⟨h.2.2.2.1, h.2.2.2.2.1, h.2.2.2.2.2.1, h.2.2.2.2.2.2⟩

/-- Claim C10: a step hitting an unrecognized opcode returns the
UnknownOpcode fault with PC advanced by exactly one and no other state
change; the faulting opcode byte then lies at PC - 1. -/
theorem step_unknown_opcode (cpu : CPU) (m : MMU) (op : Nat)
    (hm : cpu.mmu = some m) (hop : m.read_byte cpu.pc = op)
    (hunk : op ∉ knownOpcodes) :
    cpu.step = ({ cpu with pc := (cpu.pc + 1) % 0x10000 }, some (CPUError.UnknownOpcode op)) ∧
    (cpu.pc + 1 ≤ 0xFFFF → m.read_byte ((cpu.step).1.pc - 1) = op) := by
  have hstep1 : cpu.step
      = CPU.execute { cpu with pc := (cpu.pc + 1) % 0x10000 } op := by
    simp only [CPU.step, CPU.fetch_byte, hm, hop]
  simp only [knownOpcodes, List.mem_cons, List.not_mem_nil, or_false,
    not_or] at hunk
  obtain ⟨q0, q6, q4, q5, qc, qd, qe, q14, q15, q1f, q20, q21, q31, q32,
    q3e, q89, qaf, qc3, qdf, qff, q7a, qe0, qf3, qfb⟩ := hunk
  have hex : CPU.execute { cpu with pc := (cpu.pc + 1) % 0x10000 } op
      = ({ cpu with pc := (cpu.pc + 1) % 0x10000 }, some (CPUError.UnknownOpcode op)) := by
    unfold CPU.execute
    rw [if_neg q0, if_neg q6, if_neg q4, if_neg q5, if_neg qc, if_neg qd,
      if_neg qe, if_neg q14, if_neg q15, if_neg q1f, if_neg q20, if_neg q21,
      if_neg q31, if_neg q32, if_neg q3e, if_neg q89, if_neg qaf, if_neg qc3,
      if_neg qdf, if_neg qff, if_neg q7a, if_neg qe0, if_neg qf3, if_neg qfb]
  constructor
  · rw [hstep1, hex]
  · intro hpc
    rw [hstep1, hex]
    have hmod : (cpu.pc + 1) % 0x10000 = cpu.pc + 1 := by omega
    show m.read_byte ((cpu.pc + 1) % 0x10000 - 1) = op
    rw [hmod, Nat.add_sub_cancel, hop]

/-- Witness for C10 at a concrete input: opcode 0xD3 placed in work RAM. -/
theorem step_unknown_opcode_witness :
    ({ CPU.new with mmu := some (MMU.new.write_byte 0xC000 0xD3), pc := 0xC000 } : CPU).step
      = ({ CPU.new with mmu := some (MMU.new.write_byte 0xC000 0xD3), pc := 0xC001 },
         some (CPUError.UnknownOpcode 0xD3)) ∧
    (MMU.new.write_byte 0xC000 0xD3).read_byte
      ((({ CPU.new with mmu := some (MMU.new.write_byte 0xC000 0xD3), pc := 0xC000 } : CPU).step).1.pc - 1) = 0xD3 := by
  have h := step_unknown_opcode
    ({ CPU.new with mmu := some (MMU.new.write_byte 0xC000 0xD3), pc := 0xC000 } : CPU)
    (MMU.new.write_byte 0xC000 0xD3) 0xD3 rfl rfl (by decide)
  exact ⟨h.1, h.2 (by decide)⟩

end GBRust
